import Mathlib

/-!
Verification development for the AION2_AutoSim repository.

Shallow embedding of the Python sources into Lean 4:
* Python floats are modelled as exact rationals (`ℚ`).  Every concrete value
  appearing in the claims is small enough that IEEE-754 double arithmetic on it
  is exact (or its rounding error is far below the distance to the nearest
  decision boundary), so the rational model agrees with the float computation
  on all inputs considered here.
* Python `int(...)` truncation toward zero is `pyInt`.
* Python `dict` state is modelled as an association list where an assignment
  prepends a binding and lookup returns the most recent binding.
* `time.time()` is modelled as an explicit `now : ℚ` parameter; calls into the
  OS (window focus, input injection) are modelled by explicit oracles recording
  whether the call raises.
-/

/-- Python `int(q)`: truncation toward zero.  For a normalised rational this is
`num.tdiv den` (the denominator is positive). -/
def pyInt (q : ℚ) : ℤ := q.num.tdiv q.den

/-- ASCII lowercasing of one character (Python `str.lower` acts per character
on the ASCII class names used in this program). -/
def lowerChar (c : Char) : Char :=
  if 'A' ≤ c ∧ c ≤ 'Z' then Char.ofNat (c.toNat + 32) else c

/-- Python `str.lower()` on ASCII strings, written so the kernel can evaluate
it (the library `String.toLower` recurses on byte positions and does not
reduce definitionally). -/
def pyLower (s : String) : String := ⟨s.data.map lowerChar⟩

/-- The detection record exchanged between detector, planner and overlay
(`{x, y, width, height, class, confidence}` dictionaries in the source;
`d.get(k, 0)` defaults are folded into total record fields). -/
structure Detection where
  cls : String
  confidence : ℚ
  x : ℚ
  y : ℚ
  width : ℚ
  height : ℚ
  deriving DecidableEq, Repr

/-- `action_planner._center_of`: integer centre of a detection box
(`int(x + w/2), int(y + h/2)`). -/
def center_of (d : Detection) : ℤ × ℤ :=
  (pyInt (d.x + d.width / 2), pyInt (d.y + d.height / 2))

/-- `action_planner._iou`: intersection-over-union of two axis-aligned boxes,
returning `0` when the intersection is empty or the union degenerate. -/
def iou (a b : Detection) : ℚ :=
  let ax1 := a.x
  let ay1 := a.y
  let ax2 := ax1 + a.width
  let ay2 := ay1 + a.height
  let bx1 := b.x
  let by1 := b.y
  let bx2 := bx1 + b.width
  let by2 := by1 + b.height
  let ix1 := max ax1 bx1
  let iy1 := max ay1 by1
  let ix2 := min ax2 bx2
  let iy2 := min ay2 by2
  if ix2 ≤ ix1 ∨ iy2 ≤ iy1 then 0
  else
    let inter := (ix2 - ix1) * (iy2 - iy1)
    let area_a := max 0 (ax2 - ax1) * max 0 (ay2 - ay1)
    let area_b := max 0 (bx2 - bx1) * max 0 (by2 - by1)
    let union := area_a + area_b - inter
    if 0 < union then inter / union else 0

/-- Box `A=(0,0,10,10)` from the IoU test property. -/
def boxA : Detection := ⟨"", 0, 0, 0, 10, 10⟩

/-- Box `B=(5,5,10,10)` from the IoU test property. -/
def boxB : Detection := ⟨"", 0, 5, 5, 10, 10⟩

/-- Box `B=(20,20,10,10)`: disjoint from `boxA`. -/
def boxFar : Detection := ⟨"", 0, 20, 20, 10, 10⟩

/-!
## Action planner target discovery (`ActionPlanner._find_target_mob`)

The player position is the centre of the window rectangle returned by
`get_window_rect`; it is passed here as `(px, py)` (`player_x, player_y` in the
source).  The source sorts the candidate list by the key
`(priority_weight, not has_marker, distance)` with Python's stable sort and
returns `candidates[0]`, i.e. the first candidate carrying a minimal key; the
fold `select_first_min` below computes exactly that element.  The source's
`distance` is the Euclidean square root; since squaring is strictly monotone on
non-negative values, comparing squared distances produces the same order, so
`dist_sq` stores the square (floats under a `** 0.5` are not needed for the
order). -/

/-- One entry of the planner's `candidates` list:
`(d, priority_weight, distance², has_target_marker)`. -/
structure Cand where
  det : Detection
  weight : Nat
  dist_sq : ℚ
  has_marker : Bool
  deriving Repr

/-- Confidence filter from `_find_target_mob`:
`name == p and float(d.get("confidence") or 0) >= conf_thresh`. -/
def qualifies (thresh : ℚ) (p : String) (d : Detection) : Bool :=
  pyLower d.cls == p && decide (thresh ≤ d.confidence)

/-- Marker scan from `_find_target_mob`: some `mob_target` detection overlaps
`d` with IoU above `0.05`. -/
def has_target_marker (detections : List Detection) (d : Detection) : Bool :=
  detections.any fun m => pyLower m.cls == "mob_target" && decide ((1:ℚ)/20 < iou d m)

/-- Build the candidate entry for detection `d` at priority weight `w`. -/
def mk_cand (detections : List Detection) (px py : ℚ) (w : Nat) (d : Detection) : Cand :=
  let c := center_of d
  { det := d
    weight := w
    dist_sq := ((c.1 : ℚ) - px) ^ 2 + ((c.2 : ℚ) - py) ^ 2
    has_marker := has_target_marker detections d }

/-- All candidates contributed by one priority class `p` with weight `w`
(the inner `for d in detections` loop). -/
def cand_for (thresh px py : ℚ) (detections : List Detection) (p : String) (w : Nat) :
    List Cand :=
  (detections.filter (qualifies thresh p)).map (mk_cand detections px py w)

/-- Python's sort key `(x[1], not x[3], x[2])`; `not has_marker` ranks marked
candidates first (`False < True`). -/
def marker_rank (c : Cand) : Nat := if c.has_marker then 0 else 1

/-- Strict lexicographic comparison of two candidates' sort keys. -/
def key_lt (a b : Cand) : Bool :=
  decide (a.weight < b.weight ∨ (a.weight = b.weight ∧
    (marker_rank a < marker_rank b ∨ (marker_rank a = marker_rank b ∧ a.dist_sq < b.dist_sq))))

/-- First candidate with minimal key: equals `candidates[0]` after the
source's stable `candidates.sort(key=...)`. -/
def select_first_min (b : Cand) (l : List Cand) : Cand :=
  l.foldl (fun b c => if key_lt c b then c else b) b

/-- `ActionPlanner._find_target_mob`: rank all qualifying mob detections by
`(priority class, marker presence, distance to player)` and return the best,
or `none` when no detection qualifies. -/
def find_target_mob (thresh px py : ℚ) (detections : List Detection) : Option Detection :=
  let candidates :=
    cand_for thresh px py detections "mob_oncursor" 0 ++
    cand_for thresh px py detections "mob_near" 1 ++
    cand_for thresh px py detections "mob_away" 2
  match candidates with
  | [] => none
  | c :: cs => some (select_first_min c cs).det

/-- The spec's pair: a far-away mob at confidence 0.9 and an on-cursor mob at
confidence 0.3, both above the default 0.25 threshold. -/
def specAwayDet : Detection := ⟨"mob_away", 9/10, 50, 50, 20, 20⟩

/-- The on-cursor detection of the spec's pair. -/
def specOncursorDet : Detection := ⟨"mob_oncursor", 3/10, 600, 300, 20, 20⟩

/-!
## Skill-combo manager (`skill_combo_manager.py`, `skill_combo_config.py`)

Cooldown maps `skill_keybind → last_used_time` and `combo_name → last_used_time`
are association lists where an assignment prepends a binding and `List.lookup`
returns the most recent one.  `time.time()` is the explicit `now` parameter.
The input-injection calls (`tap_key`, `press_key_combination`) are modelled by
an oracle `inj_ok modifier key` telling whether the call completes without
raising; the `except` handler around `execute_skill` maps a raise to a `false`
result with no cooldown marked.
-/

/-- Python `str.strip()` (whitespace at both ends). -/
def pyStrip (s : String) : String :=
  ⟨((s.data.dropWhile Char.isWhitespace).reverse.dropWhile Char.isWhitespace).reverse⟩

/-- Remove every occurrence of `pat` from `s` (`fuel` bounds the scan; it is
instantiated with the string length, which suffices since every step consumes
at least one character). -/
def removeAllAux : Nat → List Char → List Char → List Char
  | 0, _, s => s
  | _ + 1, _, [] => []
  | fuel + 1, pat, c :: rest =>
    if pat.isPrefixOf (c :: rest) then
      removeAllAux fuel pat (rest.drop (pat.length - 1))
    else
      c :: removeAllAux fuel pat rest

/-- Python `s.replace(pat, "")`. -/
def pyRemove (s pat : String) : String :=
  ⟨removeAllAux s.data.length pat.data s.data⟩

/-- Python `pat in s` substring containment. -/
def listContains (pat : List Char) : List Char → Bool
  | [] => pat.isEmpty
  | c :: rest => pat.isPrefixOf (c :: rest) || listContains pat rest

/-- `skill_combo_config.parse_skill_keybind`: split a keybind into
`(modifier ∈ {none, 'alt', 'ctrl'}, base_key)`. -/
def parse_skill_keybind (skill : String) : Option String × String :=
  let skill_lower := pyStrip (pyLower skill)
  if listContains "alt+".data skill_lower.data then
    (some "alt", pyRemove skill_lower "alt+")
  else if listContains "ctrl+".data skill_lower.data then
    (some "ctrl", pyRemove skill_lower "ctrl+")
  else
    (none, skill_lower)

/-- `skill_combo_config.get_skill_cooldown`: configured cooldown with a 10 s
default for unknown keybinds.  `cfg` is the (mutable) `SKILL_COOLDOWNS`
mapping. -/
def get_skill_cooldown (cfg : List (String × ℚ)) (skill : String) : ℚ :=
  ((cfg.lookup (pyLower skill)).getD 10)

/-- One combo descriptor of `COMBO_SETS` (`.get` defaults folded into total
fields). -/
structure ComboSet where
  name : String
  skills : List String
  cooldown : ℚ
  delay_between_skills : ℚ
  enabled : Bool
  deriving Repr

/-- Mutable state of `SkillComboManager`: the two cooldown maps. -/
structure SCState where
  skill_cooldowns : List (String × ℚ)
  combo_cooldowns : List (String × ℚ)
  deriving Repr

/-- `SkillComboManager.is_skill_ready`. -/
def is_skill_ready (cfg : List (String × ℚ)) (st : SCState) (now : ℚ) (skill : String) :
    Bool :=
  let skill_lower := pyLower skill
  let cooldown := get_skill_cooldown cfg skill_lower
  match st.skill_cooldowns.lookup skill_lower with
  | none => true
  | some last_used => decide (cooldown ≤ now - last_used)

/-- `SkillComboManager.get_skill_cooldown_remaining`. -/
def get_skill_cooldown_remaining (cfg : List (String × ℚ)) (st : SCState) (now : ℚ)
    (skill : String) : ℚ :=
  let skill_lower := pyLower skill
  let cooldown := get_skill_cooldown cfg skill_lower
  match st.skill_cooldowns.lookup skill_lower with
  | none => 0
  | some last_used => max 0 (cooldown - (now - last_used))

/-- Mark a skill as used (`self._skill_cooldowns[skill_lower] = time.time()`). -/
def mark_skill (now : ℚ) (st : SCState) (skill : String) : SCState :=
  { st with skill_cooldowns := (pyLower skill, now) :: st.skill_cooldowns }

/-- `SkillComboManager.execute_skill`: parse the keybind, perform the input
action (oracle `inj_ok`), and mark the skill's cooldown only on success.  A
raise inside the `try` block yields `False` with no state change; the
`Unknown modifier` branch likewise returns `False` without marking.  The
source's `if modifier is None / elif 'alt' / elif 'ctrl' / else` chain is the
`ite` chain below. -/
def execute_skill (inj_ok : Option String → String → Bool) (now : ℚ) (st : SCState)
    (skill : String) : Bool × SCState :=
  let modifier := (parse_skill_keybind skill).1
  let key := (parse_skill_keybind skill).2
  if modifier = none then
    if inj_ok none key then (true, mark_skill now st skill) else (false, st)
  else if modifier = some "alt" then
    if inj_ok (some "alt") key then (true, mark_skill now st skill) else (false, st)
  else if modifier = some "ctrl" then
    if inj_ok (some "ctrl") key then (true, mark_skill now st skill) else (false, st)
  else (false, st)

/-- Success predicate of `execute_skill` (depends only on the oracle and the
keybind, not on the cooldown state). -/
def exec_ok (inj_ok : Option String → String → Bool) (skill : String) : Bool :=
  let modifier := (parse_skill_keybind skill).1
  let key := (parse_skill_keybind skill).2
  if modifier = none then inj_ok none key
  else if modifier = some "alt" then inj_ok (some "alt") key
  else if modifier = some "ctrl" then inj_ok (some "ctrl") key
  else false

/-- Step loop of `SkillComboManager.execute_combo`: execute the skills in
order, aborting on the first failure; after a fully successful pass, mark the
combo's own cooldown (`self._combo_cooldowns[combo_name] = time.time()`). -/
def execute_combo_go (inj_ok : Option String → String → Bool) (now : ℚ)
    (combo_name : String) : List String → SCState → Bool × SCState
  | [], st => (true, { st with combo_cooldowns := (combo_name, now) :: st.combo_cooldowns })
  | s :: rest, st =>
    match execute_skill inj_ok now st s with
    | (false, st') => (false, st')
    | (true, st') => execute_combo_go inj_ok now combo_name rest st'

/-- `SkillComboManager.execute_combo`. -/
def execute_combo (inj_ok : Option String → String → Bool) (now : ℚ) (st : SCState)
    (combo : ComboSet) : Bool × SCState :=
  execute_combo_go inj_ok now combo.name combo.skills st

/-- The spec's 4-skill combo whose 3rd skill will fail. -/
def combo0 : ComboSet := ⟨"Basic DPS Rotation", ["1", "2", "3", "4"], 60, 1/2, true⟩

/-- Injection oracle that raises exactly on the key `3`. -/
def injFail3 : Option String → String → Bool := fun _ key => !(key == "3")

/-!
## A* pathfinding (`pathfinding.py`)

Grid positions are integer pairs.  `heapq` pops the least `(f, position)`
tuple under Python's lexicographic tuple order; entries with equal keys are
identical values, so popping the first occurrence of the minimum is
equivalent (`heap_pop`).  The `came_from` / `g_score` dictionaries are
association lists (assignment prepends, lookup takes the most recent
binding).  The `while open_set` loop is driven by explicit fuel; the source
loop terminates because the grid is finite, and every theorem below
instantiates the fuel generously.  `g_score[current]` is modelled with a
`getD 0` default that is never consulted: every position pushed on the open
set has been given a score first.
-/

/-- A grid position (`Tuple[int, int]`). -/
abbrev Position := ℤ × ℤ

/-- `pathfinding.manhattan`. -/
def manhattan (a b : Position) : ℤ := |a.1 - b.1| + |a.2 - b.2|

/-- `pathfinding.neighbors`: 4-directional expansion. -/
def neighbors (pos : Position) : List Position :=
  [(pos.1 + 1, pos.2), (pos.1 - 1, pos.2), (pos.1, pos.2 + 1), (pos.1, pos.2 - 1)]

/-- Python tuple comparison on heap entries `(f, (x, y))`. -/
def entry_lt (a b : ℤ × Position) : Bool :=
  decide (a.1 < b.1 ∨ (a.1 = b.1 ∧ (a.2.1 < b.2.1 ∨ (a.2.1 = b.2.1 ∧ a.2.2 < b.2.2))))

/-- Least entry of a non-empty heap content list. -/
def find_min_entry (e : ℤ × Position) (l : List (ℤ × Position)) : ℤ × Position :=
  l.foldl (fun b c => if entry_lt c b then c else b) e

/-- Remove the first occurrence of an entry. -/
def remove_first (e : ℤ × Position) : List (ℤ × Position) → List (ℤ × Position)
  | [] => []
  | x :: xs => if x = e then xs else x :: remove_first e xs

/-- `heapq.heappop` on the modelled open set. -/
def heap_pop (open_set : List (ℤ × Position)) :
    Option ((ℤ × Position) × List (ℤ × Position)) :=
  match open_set with
  | [] => none
  | e :: rest =>
    let m := find_min_entry e rest
    some (m, remove_first m (e :: rest))

/-- The bounds test `0 <= x < width and 0 <= y < height`. -/
def in_bounds (width height : ℤ) (p : Position) : Bool :=
  decide (0 ≤ p.1 ∧ p.1 < width ∧ 0 ≤ p.2 ∧ p.2 < height)

/-- Body of the `for n in neighbors(current)` loop: skip out-of-bounds
neighbours, and relax `n` when the tentative score improves
(`g_score.get(n, 1_000_000)`). -/
def astar_relax (width height : ℤ) (goal current : Position)
    (st : List (ℤ × Position) × List (Position × Option Position) × List (Position × ℤ))
    (n : Position) :
    List (ℤ × Position) × List (Position × Option Position) × List (Position × ℤ) :=
  let (open_set, came_from, g_score) := st
  if in_bounds width height n then
    let tentative := (g_score.lookup current).getD 0 + 1
    if tentative < (g_score.lookup n).getD 1000000 then
      ((tentative + manhattan n goal, n) :: open_set,
        (n, some current) :: came_from,
        (n, tentative) :: g_score)
    else st
  else st

/-- Path reconstruction (`while p is not None`), fuelled by the size of
`came_from`, which bounds the length of any acyclic parent chain.  Both the
missing-key case and a stored `None` parent end the walk, as with
`came_from.get(p)`. -/
def reconstruct (came_from : List (Position × Option Position)) :
    Nat → Position → List Position → List Position
  | 0, p, acc => p :: acc
  | fuel + 1, p, acc =>
    match came_from.lookup p with
    | some (some q) => reconstruct came_from fuel q (p :: acc)
    | _ => p :: acc

/-- The `while open_set` loop of `pathfinding.astar`. -/
def astar_loop (width height : ℤ) (goal : Position) :
    Nat → List (ℤ × Position) → List (Position × Option Position) → List (Position × ℤ) →
      Option (List Position)
  | 0, _, _, _ => none
  | fuel + 1, open_set, came_from, g_score =>
    match heap_pop open_set with
    | none => none
    | some ((_, current), rest) =>
      if current = goal then
        some (reconstruct came_from came_from.length current [])
      else
        let st := (neighbors current).foldl (astar_relax width height goal current)
          (rest, came_from, g_score)
        astar_loop width height goal fuel st.1 st.2.1 st.2.2

/-- `pathfinding.astar`: returns the full path including start and goal, or
`none` when the goal lies outside the grid bounds (checked before the search
loop runs, so the answer for an out-of-bounds goal is `none` for every fuel). -/
def astar (fuel : Nat) (width height : ℤ) (start goal : Position) :
    Option (List Position) :=
  if ¬ (0 ≤ goal.1 ∧ goal.1 < width ∧ 0 ≤ goal.2 ∧ goal.2 < height) then none
  else astar_loop width height goal fuel [(0, start)] [(start, none)] [(start, 0)]

/-- Every consecutive pair of positions differs by exactly one unit on exactly
one axis. -/
def unit_steps : List Position → Bool
  | [] => true
  | [_] => true
  | a :: b :: rest => (|a.1 - b.1| + |a.2 - b.2| == 1) && unit_steps (b :: rest)

/-- The path shape demanded for `astar(5,5,(0,0),(4,4))`: present, 9 positions,
starts at `(0,0)`, ends at `(4,4)`, unit steps throughout. -/
def astar_path_check (res : Option (List Position)) : Bool :=
  match res with
  | none => false
  | some p =>
    p.length == 9 && p.head? == some ((0 : ℤ), (0 : ℤ)) &&
      p.getLast? == some ((4 : ℤ), (4 : ℤ)) && unit_steps p

/-!
## Mouse coordinate normalisation (`input_controller.move_mouse_to`)

The SendInput backend computes `abs_x = int(x * 65535 / screen_width)` (and
likewise for y).  In the source the product and quotient are IEEE doubles; for
on-screen magnitudes (`value`, `screen_dim` < 2^16) the float quotient differs
from the exact rational quotient by far less than that quotient's distance to
the nearest integer, so the exact rational model truncates identically.
-/

/-- `int(value * 65535 / screen_dim)` from `move_mouse_to`. -/
def abs_coord (value screen_dim : ℤ) : ℤ :=
  pyInt (((value : ℚ) * 65535) / (screen_dim : ℚ))

/-- Modelled from the spec: the claimed mapping
`value * 65535 / (screen_dimension − 1)`, "clamped so single-pixel screens
don't divide by zero" (divisor clamped to at least 1).  No such subtraction or
clamp exists in `input_controller.move_mouse_to`; this definition exists to be
compared against `abs_coord`. -/
def spec_abs_coord (value screen_dim : ℤ) : ℤ :=
  pyInt (((value : ℚ) * 65535) / (max 1 ((screen_dim : ℚ) - 1)))

/-!
## Detection rescaling (`DetectionController`)

`main.py` imports `DetectionController` from `detection.py`, but the source
tree's `detection.py` defines only `Detector` — the controller's body is
missing from the repository.  Its rescaling step is therefore modelled from
the specification.
-/

/-- Modelled from the spec: `DetectionController`'s scale factor between the
frame submitted for inference and the true window size —
`scale = window_dim / inference_frame_dim`, "defaulting to 1.0 if either
dimension is zero or unknown". -/
def scale_factor (window_dim frame_dim : ℚ) : ℚ :=
  if frame_dim = 0 ∨ window_dim = 0 then 1 else window_dim / frame_dim

/-- Modelled from the spec: rescale a detection's `x, y, width, height` by the
per-axis scale factors so downstream consumers receive true window-pixel
coordinates. -/
def scale_detection (frame_w frame_h window_w window_h : ℚ) (d : Detection) : Detection :=
  let sx := scale_factor window_w frame_w
  let sy := scale_factor window_h frame_h
  { d with x := d.x * sx, y := d.y * sy, width := d.width * sx, height := d.height * sy }

/-!
## Autoplay simulation (`player.py`, `map.py`, `combat.py`, `autoplay.py`)

`time.time()` is the explicit `now` parameter.  Inventories and skill maps are
insertion-ordered dictionaries with unique keys: an update replaces the value
in place, a fresh key is appended (Python dict semantics, which the
`for item in list(inventory.keys())` loop in `village_actions` observes).
The `Player` dataclass of `player.py` defines no `gold` attribute even though
`autoplay.village_actions` / `refill_potions` read and write `player.gold`;
reading the missing attribute raises `AttributeError`, modelled as
`PyErr.attributeError "gold"`.  `player.pos` is likewise not a dataclass field
but is read and assigned throughout `autoplay.py` as a dynamic attribute that
external driver code must have set; it is modelled as a field carrying that
externally-assigned position.  The `MacroController`/`WindowManager` safe-mode
stubs only log and are modelled as no-ops.
-/

/-- Python dict update: replace in place when the key exists, append otherwise. -/
def dict_set (l : List (String × ℤ)) (k : String) (v : ℤ) : List (String × ℤ) :=
  if (l.lookup k).isSome then l.map (fun e => if e.1 = k then (k, v) else e)
  else l ++ [(k, v)]

/-- Exceptions surfaced by the simulation code. -/
inductive PyErr where
  | attributeError (attr : String)
  deriving DecidableEq, Repr

/-- `player.Skill` dataclass. -/
structure Skill where
  id : String
  name : String
  cooldown : ℚ
  last_used : ℚ
  power : ℤ
  deriving DecidableEq, Repr

/-- `Skill.ready`: elapsed time since last use has reached the cooldown. -/
def Skill.ready (s : Skill) (now : ℚ) : Bool := decide (s.cooldown ≤ now - s.last_used)

/-- `Skill.use`: stamp the last-used time. -/
def Skill.use (s : Skill) (now : ℚ) : Skill := { s with last_used := now }

/-- `player.Player` dataclass.  It has no `gold` field (see the section
comment); `pos` models the dynamically assigned position attribute. -/
structure Player where
  id : String
  name : String
  max_hp : ℤ
  hp : ℤ
  max_mp : ℤ
  mp : ℤ
  attack : ℤ
  defense : ℤ
  skills : List (String × Skill)
  inventory : List (String × ℤ)
  stamina : ℚ
  pos : Position
  deriving DecidableEq, Repr

/-- `Player.heal`: clamp to `max_hp`. -/
def Player.heal (p : Player) (amount : ℤ) : Player :=
  { p with hp := min p.max_hp (p.hp + amount) }

/-- `Player.add_item`. -/
def Player.add_item (p : Player) (item_id : String) (qty : ℤ) : Player :=
  { p with inventory :=
      dict_set p.inventory item_id ((p.inventory.lookup item_id).getD 0 + qty) }

/-- `Player.use_skill`: look the skill up by id, use it when ready. -/
def Player.use_skill (p : Player) (skill_id : String) (now : ℚ) : Bool × Player :=
  match p.skills.lookup skill_id with
  | none => (false, p)
  | some skill =>
    if skill.ready now then
      (true, { p with skills := (p.skills.map
        (fun e => if e.1 = skill_id then (skill_id, skill.use now) else e)) })
    else (false, p)

/-- `map.Enemy` dataclass. -/
structure Enemy where
  id : String
  name : String
  hp : ℤ
  pos : Position
  loot_table : List (String × ℤ)
  deriving DecidableEq, Repr

/-- `Enemy.is_alive`. -/
def Enemy.is_alive (e : Enemy) : Bool := decide (0 < e.hp)

/-- `map.ResourceNode` dataclass. -/
structure ResourceNode where
  id : String
  resource_type : String
  qty : ℤ
  pos : Position
  deriving DecidableEq, Repr

/-- `map.GridMap`. -/
structure GridMap where
  width : ℤ
  height : ℤ
  enemies : List Enemy
  resources : List ResourceNode
  deriving DecidableEq, Repr

/-- `GridMap.get_enemies_near`: living enemies within independent-axis
distance `radius`. -/
def get_enemies_near (grid : GridMap) (pos : Position) (radius : ℤ) : List Enemy :=
  grid.enemies.filter fun e =>
    decide (|e.pos.1 - pos.1| ≤ radius) && decide (|e.pos.2 - pos.2| ≤ radius) && e.is_alive

/-- `combat.CombatEngine.calculate_damage`:
`max(1, attack (+ skill.power) − int(defender_hp * 0.01))`.  The float product
`defender_hp * 0.01` truncates like the exact `defender_hp / 100` for all HP
magnitudes representable in the simulation. -/
def calculate_damage (attacker : Player) (defender_hp : ℤ) (skill : Option Skill) : ℤ :=
  let base := attacker.attack + (match skill with | some s => s.power | none => 0)
  max 1 (base - pyInt ((defender_hp : ℚ) / 100))

/-- `combat.CombatEngine.attack`: use the `"basic"` skill when present and
ready, else plain damage; the enemy's HP is floored at 0.  Returns the updated
attacker (skill cooldown stamped) and enemy. -/
def combat_attack (now : ℚ) (attacker : Player) (enemy : Enemy) : Player × Enemy :=
  match attacker.skills.lookup "basic" with
  | some skill =>
    let r := attacker.use_skill skill.id now
    let dmg := if r.1 then calculate_damage r.2 enemy.hp (some skill)
      else calculate_damage r.2 enemy.hp none
    (r.2, { enemy with hp := max 0 (enemy.hp - dmg) })
  | none =>
    let dmg := calculate_damage attacker enemy.hp none
    (attacker, { enemy with hp := max 0 (enemy.hp - dmg) })

/-- State of `autoplay.AutoPlayController` (constructor arguments and the AI
state string; the macro and window-manager stubs carry no modelled state). -/
structure AutoPlay where
  player : Player
  grid : GridMap
  state : String
  inventory_capacity : ℤ
  hp_potion_name : String
  potion_refill_amount : ℤ
  deriving DecidableEq, Repr

/-- `AutoPlayController.find_target`: first living enemy within radius 6. -/
def find_target (ap : AutoPlay) : Option Enemy :=
  (get_enemies_near ap.grid ap.player.pos 6).head?

/-- `AutoPlayController.auto_heal`: below 30 % HP, consume one potion (when
any) and heal `int(max_hp * 0.4)`. -/
def auto_heal (ap : AutoPlay) : AutoPlay :=
  let hp_pct : ℚ := (ap.player.hp : ℚ) / ((max 1 ap.player.max_hp : ℤ) : ℚ)
  if hp_pct < 3/10 then
    let potions := (ap.player.inventory.lookup ap.hp_potion_name).getD 0
    if 0 < potions then
      let p1 := { ap.player with
        inventory := dict_set ap.player.inventory ap.hp_potion_name (potions - 1) }
      { ap with player := p1.heal (pyInt ((p1.max_hp : ℚ) * (2/5))) }
    else ap
  else ap

/-- `AutoPlayController.inventory_full`: total item count reaches capacity. -/
def inventory_total (p : Player) : ℤ := p.inventory.foldl (fun acc e => acc + e.2) 0

/-- `AutoPlayController.inventory_full`. -/
def inventory_full (ap : AutoPlay) : Bool :=
  decide (ap.inventory_capacity ≤ inventory_total ap.player)

/-- `AutoPlayController.potions_empty`. -/
def potions_empty (ap : AutoPlay) : Bool :=
  decide ((ap.player.inventory.lookup ap.hp_potion_name).getD 0 ≤ 0)

/-- `AutoPlayController.go_to`: follow the A* path (macro actions are
safe-mode no-ops), ending at the path's last position; stay in place when no
path exists. -/
def go_to (ap : AutoPlay) (pos : Position) : AutoPlay :=
  match astar 4096 ap.grid.width ap.grid.height ap.player.pos pos with
  | none => ap
  | some path =>
    { ap with player := { ap.player with pos := path.getLastD ap.player.pos } }

/-- `AutoPlayController.collect_loot`: add every loot-table entry. -/
def collect_loot (p : Player) (e : Enemy) : Player :=
  e.loot_table.foldl (fun p it => p.add_item it.1 it.2) p

/-- Replace the first occurrence of `old` (the in-place-mutated enemy object;
the model's grids carry no duplicate equal enemies, so first-equal matches
object identity). -/
def replace_first (old e' : Enemy) : List Enemy → List Enemy
  | [] => []
  | x :: xs => if x = old then e' :: xs else x :: replace_first old e' xs

/-- `AutoPlayController.auto_hunt`: path to the nearest enemy, attack it, and
loot it when it dies. -/
def auto_hunt (ap : AutoPlay) (now : ℚ) : AutoPlay :=
  match find_target ap with
  | none => ap
  | some target =>
    let ap1 := go_to ap target.pos
    let r := combat_attack now ap1.player target
    let ap2 := { ap1 with
      player := r.1
      grid := { ap1.grid with enemies := replace_first target r.2 ap1.grid.enemies } }
    if ¬ r.2.is_alive then { ap2 with player := collect_loot ap2.player r.2 } else ap2

/-- The selling loop of `AutoPlayController.village_actions` over the
inventory's key list: potions are kept; a non-potion entry is popped, and as
soon as one with non-zero quantity is sold the credit `self.player.gold += qty`
reads the missing `gold` attribute and raises. -/
def village_actions_go (keep : String) : List (String × ℤ) → Except PyErr (List (String × ℤ))
  | [] => .ok []
  | (item, qty) :: rest =>
    if item = keep then
      match village_actions_go keep rest with
      | .error e => .error e
      | .ok r => .ok ((item, qty) :: r)
    else if qty ≠ 0 then .error (.attributeError "gold")
    else village_actions_go keep rest

/-- `AutoPlayController.village_actions`. -/
def village_actions (ap : AutoPlay) : Except PyErr AutoPlay :=
  match village_actions_go ap.hp_potion_name ap.player.inventory with
  | .error e => .error e
  | .ok inv => .ok { ap with player := { ap.player with inventory := inv } }

/-- `AutoPlayController.refill_potions`: when potions are below the refill
target, the purchase reads `self.player.gold`, which raises. -/
def refill_potions (ap : AutoPlay) : Except PyErr AutoPlay :=
  let cur := (ap.player.inventory.lookup ap.hp_potion_name).getD 0
  let need := max 0 (ap.potion_refill_amount - cur)
  if 0 < need then .error (.attributeError "gold") else .ok ap

/-- `AutoPlayController.return_to_village`. -/
def return_to_village (ap : AutoPlay) (village_pos : Position) : Except PyErr AutoPlay := do
  let origin := ap.player.pos
  let ap1 := go_to ap village_pos
  let ap2 ← village_actions ap1
  let ap3 ← refill_potions ap2
  .ok (go_to ap3 origin)

/-- Which branch one call of `AutoPlayController.tick` takes. -/
inductive TickAction where
  | returnToVillage
  | autoHunt
  | idle
  deriving DecidableEq, Repr

/-- `AutoPlayController.tick`: heal first, then either return to the village
(inventory full or potions gone), hunt (aggressive state), or do nothing.  The
first component records which branch was invoked; the second the resulting
state or the exception the invoked branch raises. -/
def tick (ap : AutoPlay) (now : ℚ) : TickAction × Except PyErr AutoPlay :=
  let ap1 := auto_heal ap
  if inventory_full ap1 || potions_empty ap1 then
    (.returnToVillage, return_to_village ap1 (0, 0))
  else if ap1.state = "aggressive" then
    (.autoHunt, .ok (auto_hunt ap1 now))
  else
    (.idle, .ok ap1)

/-- Player for the C7 counterexample: full inventory (30 potions = capacity),
1 HP so the automatic heal consumes a potion first. -/
def player7 : Player :=
  ⟨"p1", "TestPlayer", 100, 1, 50, 50, 10, 5, [], [("hp_potion", 30)], 100, (2, 2)⟩

/-- A 10×10 grid with one living enemy near the player. -/
def grid7 : GridMap := ⟨10, 10, [⟨"e1", "Goblin", 5, (3, 3), [("coin", 5)]⟩], []⟩

/-- Controller state for the C7 counterexample (capacity 30, aggressive). -/
def ap7 : AutoPlay := ⟨player7, grid7, "aggressive", 30, "hp_potion", 10⟩

/-- Player for the C7 amended witness: healthy, no potions, inventory full of
ore. -/
def player8 : Player :=
  ⟨"p1", "TestPlayer", 100, 100, 50, 50, 10, 5, [], [("ore", 30)], 100, (2, 2)⟩

/-- Controller state for the C7 amended witness. -/
def ap8 : AutoPlay := ⟨player8, grid7, "aggressive", 30, "hp_potion", 10⟩

/-- Player for the C8 failing input: one non-potion item to sell. -/
def player9 : Player :=
  ⟨"p1", "TestPlayer", 100, 100, 50, 50, 10, 5, [], [("ore", 1)], 100, (2, 2)⟩

/-- Controller state for the C8 failing input. -/
def ap9 : AutoPlay := ⟨player9, grid7, "aggressive", 30, "hp_potion", 10⟩

/-!
## Action planner cycle (`ActionPlanner.plan_and_execute`)

One planning cycle is a function of the cycle's clock and random draws
(`PlannerEnv`), the planner's mutable state (`PlannerState`), the detection
list and the window rectangle `(left, top, w, h)`.  The OS side effects
(focus, clicks, key taps, sleeps) are summarised in the returned
`PlanOutcome`; the mutable attributes of the `ActionPlanner` object are the
returned `PlannerState`.  `_find_target_mob` re-queries `get_window_rect` for
the player centre; the same window rectangle is passed in, so the centre is
`(w/2, h/2)`.  Stealth-config samples (`get_action_delay`,
`get_warmup_delay`, `should_idle`, `get_idle_duration`, `get_mouse_jitter`,
the `MOB_CLICK_Y` ratio and the movement-pattern draws) are the `PlannerEnv`
fields; `IDLE_CHECK_INTERVAL = 30` and `WARMUP_ACTIONS = 10` are the
constants of `stealth_config.py`.
-/

/-- `ActionPlanner._find_health_for`: first `mob_combat_health` detection
overlapping the target with IoU above `0.05`. -/
def find_health_for (target : Detection) (detections : List Detection) : Option Detection :=
  detections.find? fun d =>
    pyLower d.cls == "mob_combat_health" && decide ((1:ℚ)/20 < iou target d)

/-- `ActionPlanner._find_map_dots`: class name contains one of the map-dot
substrings. -/
def find_map_dots (detections : List Detection) : List Detection :=
  detections.filter fun d =>
    ["map", "dot", "red", "enemy", "map_dot", "map_enemy"].any fun k =>
      listContains k.data (pyLower d.cls).data

/-- `ActionPlanner._find_north_map_dots`: dots in the top-right minimap
quadrant lying above the quadrant's average y, with the source's fallbacks.
(The source also computes the quadrant's average x, which it never reads.) -/
def find_north_map_dots (dots : List Detection) (window_w window_h : ℚ) : List Detection :=
  if dots.isEmpty then []
  else
    let map_dots := dots.filter fun d =>
      decide (window_w * (1/2) < d.x) && decide (d.y < window_h * (1/2))
    if map_dots.isEmpty then dots
    else
      let avg_y := (map_dots.foldl (fun a d => a + d.y) 0) / (map_dots.length : ℚ)
      let north_dots := map_dots.filter fun d => decide (d.y < avg_y)
      if north_dots.isEmpty then map_dots else north_dots

/-- The `best`/`best_dist` fold over the north dots (strict improvement, so
the first minimum wins; squared distances order identically to the source's
square roots). -/
def choose_nearest (cx cy : ℚ) (l : List Detection) : Option Detection :=
  (l.foldl (fun best d =>
    let dx := (d.x + d.width / 2) - cx
    let dy := (d.y + d.height / 2) - cy
    let dist_sq := dx * dx + dy * dy
    match best with
    | none => some (d, dist_sq)
    | some (b, bd) => if dist_sq < bd then some (d, dist_sq) else some (b, bd)) none).map
    Prod.fst

/-- The clock and the stealth-config random draws of one planning cycle. -/
structure PlannerEnv where
  now : ℚ
  should_idle : Bool
  idle_duration : ℚ
  action_delay : ℚ
  warmup_delay : ℚ
  y_percentage : ℚ
  jitter_x : ℚ
  jitter_y : ℚ
  should_change_pattern : Bool
  next_pattern : String
  next_pattern_duration : ℚ
  deriving Repr

/-- Mutable attributes of `ActionPlanner`. -/
structure PlannerState where
  enabled : Bool
  conf_thresh : ℚ
  last_action : ℚ
  target_locked : Option Detection
  action_count : Nat
  last_idle_check : ℚ
  in_idle_state : Bool
  idle_until : ℚ
  current_movement_pattern : String
  movement_pattern_start : ℚ
  movement_pattern_duration : ℚ
  deriving Repr

/-- The discrete action one `plan_and_execute` cycle performs. -/
inductive PlanOutcome where
  | disabled
  | idling
  | idle_entered
  | cooldown_wait
  | attack (screen_x screen_y : ℤ) (health_seen : Bool)
  | continue_locked (screen_x screen_y : ℤ)
  | explore (pattern : String)
  | turn (key : String) (big : Bool)
  | move_forward
  | move_backward
  | hold_position
  deriving DecidableEq, Repr

/-- Outcomes produced by the navigation logic (steps 2 of the cycle: map-dot
steering, including the no-dot movement-pattern fallback and the cycles where
the heading is already correct and no key is sent). -/
def is_navigation : PlanOutcome → Bool
  | .explore _ => true
  | .turn _ _ => true
  | .move_forward => true
  | .move_backward => true
  | .hold_position => true
  | _ => false

/-- An attack outcome whose target had an overlapping health bar. -/
def is_attack_with_health : PlanOutcome → Bool
  | .attack _ _ health_seen => health_seen
  | _ => false

/-- Step 2 of `plan_and_execute`: navigation by minimap dots, or the
movement-pattern fallback when no dots are detected.  (`best is None` cannot
occur with a non-empty dot list; that source branch returns without acting and
is mapped to `hold_position`.) -/
def navigate (env : PlannerEnv) (st : PlannerState) (detections : List Detection)
    (_left _top w h : ℚ) : PlannerState × PlanOutcome :=
  let dots := find_map_dots detections
  if dots.length = 0 then
    let change := env.should_change_pattern ||
      decide (st.movement_pattern_duration < env.now - st.movement_pattern_start)
    let st1 := if change then
      { st with
        current_movement_pattern := env.next_pattern
        movement_pattern_duration := env.next_pattern_duration
        movement_pattern_start := env.now }
      else st
    (st1, .explore st1.current_movement_pattern)
  else
    let north0 := find_north_map_dots dots w h
    let north_dots := if north0.isEmpty then dots else north0
    let cx := w / 2
    let cy := h / 2
    match choose_nearest cx cy north_dots with
    | none => (st, .hold_position)
    | some best =>
      let c := center_of best
      let ndx := ((c.1 : ℚ) - cx) / max 1 cx
      let ndy := ((c.2 : ℚ) - cy) / max 1 cy
      if 3/10 < |ndx| then
        (st, .turn (if 0 < ndx then "d" else "a") true)
      else if 3/20 < |ndx| then
        (st, .turn (if 0 < ndx then "d" else "a") false)
      else if ndy < -(3/25) then (st, .move_forward)
      else if 3/25 < ndy then (st, .move_backward)
      else (st, .hold_position)

/-- Step 1 of `plan_and_execute` after the gates: attack a fresh target
(locking it when a health bar overlaps), else keep attacking a locked target
whose health bar is still visible, else clear a stale lock and fall through to
navigation in the same cycle. -/
def plan_act (env : PlannerEnv) (st : PlannerState) (detections : List Detection)
    (left top w h : ℚ) : PlannerState × PlanOutcome :=
  match find_target_mob st.conf_thresh (w / 2) (h / 2) detections with
  | some target =>
    let click_x := target.x + target.width / 2 + env.jitter_x
    let click_y := target.y + target.height * env.y_percentage + env.jitter_y
    let screen_x := pyInt (left + click_x)
    let screen_y := pyInt (top + click_y)
    let health := find_health_for target detections
    let st1 := if health.isSome then { st with target_locked := some target } else st
    (st1, .attack screen_x screen_y health.isSome)
  | none =>
    match st.target_locked with
    | some lock =>
      if detections.any (fun d =>
          pyLower d.cls == "mob_combat_health" && decide ((1:ℚ)/20 < iou lock d)) then
        let c := center_of lock
        (st, .continue_locked (pyInt (left + (c.1 : ℚ))) (pyInt (top + (c.2 : ℚ))))
      else
        navigate env { st with target_locked := none } detections left top w h
    | none => navigate env st detections left top w h

/-- The action-cooldown gate (randomised delay plus warmup extra for the first
`WARMUP_ACTIONS = 10` actions), then the action body. -/
def plan_gate (env : PlannerEnv) (st : PlannerState) (detections : List Detection)
    (left top w h : ℚ) : PlannerState × PlanOutcome :=
  let cooldown := env.action_delay + (if st.action_count < 10 then env.warmup_delay else 0)
  if env.now - st.last_action < cooldown then (st, .cooldown_wait)
  else plan_act env
    { st with last_action := env.now, action_count := st.action_count + 1 }
    detections left top w h

/-- `ActionPlanner.plan_and_execute`: enabled gate, idle-state gate, periodic
idle trigger (`IDLE_CHECK_INTERVAL = 30`), cooldown gate, then the action
body. -/
def plan_and_execute (env : PlannerEnv) (st : PlannerState) (detections : List Detection)
    (left top w h : ℚ) : PlannerState × PlanOutcome :=
  if ¬ st.enabled then (st, .disabled)
  else if st.in_idle_state ∧ env.now < st.idle_until then (st, .idling)
  else
    let st1 := if st.in_idle_state then { st with in_idle_state := false } else st
    if 30 < env.now - st1.last_idle_check then
      let st2 := { st1 with last_idle_check := env.now }
      if env.should_idle then
        ({ st2 with in_idle_state := true, idle_until := env.now + env.idle_duration },
          .idle_entered)
      else plan_gate env st2 detections left top w h
    else plan_gate env st1 detections left top w h

/-- Mob detection used by the C2 witness. -/
def mobDet : Detection := ⟨"mob_near", 1/2, 100, 100, 50, 40⟩

/-- Health-bar detection overlapping `mobDet` (IoU = 1/9). -/
def healthDet : Detection := ⟨"mob_combat_health", 9/10, 100, 95, 50, 10⟩

/-- Minimap dot used by the C2 witness's second cycle. -/
def dotDet : Detection := ⟨"map_dot", 9/10, 600, 100, 10, 10⟩

/-- Clock/draws for the C2 witness cycles. -/
def env2 : PlannerEnv := ⟨100, false, 5, 1, 2, 4/5, 0, 0, false, "forward", 2⟩

/-- Planner state entering the witness's attack cycle. -/
def stA : PlannerState := ⟨true, 1/4, 0, none, 20, 100, false, 0, "forward", 0, 2⟩

/-- Planner state entering the witness's lock-clearing cycle. -/
def stB : PlannerState := ⟨true, 1/4, 0, some mobDet, 20, 100, false, 0, "forward", 0, 2⟩

/-!
## Theorems

The development of the claims over the definitions above.
-/

/-- C5: the planner's IoU helper returns `25/175` on the overlapping pair
`A=(0,0,10,10)`, `B=(5,5,10,10)`, and returns exactly `0` for every pair of
boxes whose intersection is empty. -/
theorem iou_values (a b : Detection)
    (hdisj : min (a.x + a.width) (b.x + b.width) ≤ max a.x b.x ∨
      min (a.y + a.height) (b.y + b.height) ≤ max a.y b.y) :
    iou boxA boxB = 25 / 175 ∧ iou a b = 0 := by
  refine ⟨by norm_num [iou, boxA, boxB], ?_⟩
  unfold iou
  simp only [if_pos hdisj]

/-- Witness for C5 at the disjoint pair `A=(0,0,10,10)`, `B=(20,20,10,10)`. -/
theorem iou_values_witness : iou boxA boxFar = 0 :=
  (iou_values boxA boxFar (by norm_num [boxA, boxFar])).2

theorem select_first_min_cons (b c : Cand) (cs : List Cand) :
    select_first_min b (c :: cs) = select_first_min (if key_lt c b then c else b) cs := rfl

theorem select_first_min_mem (b : Cand) (l : List Cand) :
    select_first_min b l = b ∨ select_first_min b l ∈ l := by
  induction l generalizing b with
  | nil => exact Or.inl rfl
  | cons c cs ih =>
    rw [select_first_min_cons]
    by_cases hk : key_lt c b = true
    · rw [if_pos hk]
      rcases ih c with h | h
      · exact Or.inr (List.mem_cons.mpr (Or.inl h))
      · exact Or.inr (List.mem_cons_of_mem _ h)
    · rw [if_neg hk]
      rcases ih b with h | h
      · exact Or.inl h
      · exact Or.inr (List.mem_cons_of_mem _ h)

theorem key_lt_weight_le {a b : Cand} (h : key_lt a b = true) : a.weight ≤ b.weight := by
  simp only [key_lt, decide_eq_true_eq] at h
  rcases h with h | ⟨h, _⟩
  · exact Nat.le_of_lt h
  · exact Nat.le_of_eq h

theorem key_not_lt_weight_le {a b : Cand} (h : ¬ key_lt a b = true) : b.weight ≤ a.weight := by
  simp only [key_lt, decide_eq_true_eq, not_or, not_and, not_lt] at h
  exact h.1

theorem select_first_min_weight_le_start (b : Cand) (l : List Cand) :
    (select_first_min b l).weight ≤ b.weight := by
  induction l generalizing b with
  | nil => exact Nat.le_refl _
  | cons c cs ih =>
    rw [select_first_min_cons]
    by_cases hk : key_lt c b = true
    · rw [if_pos hk]
      exact Nat.le_trans (ih c) (key_lt_weight_le hk)
    · rw [if_neg hk]
      exact ih b

theorem select_first_min_weight_le (b : Cand) (l : List Cand) :
    ∀ c ∈ l, (select_first_min b l).weight ≤ c.weight := by
  induction l generalizing b with
  | nil => intro c hc; cases hc
  | cons c cs ih =>
    intro d hd
    rw [select_first_min_cons]
    rcases List.mem_cons.mp hd with rfl | hd
    · by_cases hk : key_lt d b = true
      · rw [if_pos hk]
        exact select_first_min_weight_le_start d cs
      · rw [if_neg hk]
        exact Nat.le_trans (select_first_min_weight_le_start b cs) (key_not_lt_weight_le hk)
    · by_cases hk : key_lt c b = true
      · rw [if_pos hk]; exact ih c d hd
      · rw [if_neg hk]; exact ih b d hd

theorem cand_for_weight (thresh px py : ℚ) (detections : List Detection) (p : String)
    (w : Nat) : ∀ c ∈ cand_for thresh px py detections p w, c.weight = w := by
  intro c hc
  simp only [cand_for, List.mem_map] at hc
  obtain ⟨d, _, rfl⟩ := hc
  rfl

theorem cand_for_cls (thresh px py : ℚ) (detections : List Detection) (p : String)
    (w : Nat) : ∀ c ∈ cand_for thresh px py detections p w, pyLower c.det.cls = p := by
  intro c hc
  simp only [cand_for, List.mem_map, List.mem_filter] at hc
  obtain ⟨d, ⟨_, hq⟩, rfl⟩ := hc
  simp only [qualifies, Bool.and_eq_true, beq_iff_eq, decide_eq_true_eq] at hq
  exact hq.1

/-- C1: whenever the detection list contains a `mob_oncursor` detection at or
above the confidence threshold, `_find_target_mob` selects a `mob_oncursor`
detection — priority class outranks confidence magnitude and distance.  (The
concrete spec pair `mob_away` at 0.9 versus `mob_oncursor` at 0.3 is the
witness below.) -/
theorem find_target_mob_priority (thresh px py : ℚ) (detections : List Detection)
    (h : ∃ d ∈ detections, pyLower d.cls = "mob_oncursor" ∧ thresh ≤ d.confidence) :
    ∃ r, find_target_mob thresh px py detections = some r ∧
      pyLower r.cls = "mob_oncursor" := by
  obtain ⟨d, hd, hcls, hconf⟩ := h
  have hdq : qualifies thresh "mob_oncursor" d = true := by
    simp only [qualifies, Bool.and_eq_true, beq_iff_eq, decide_eq_true_eq]
    exact ⟨hcls, hconf⟩
  have hmem0 : mk_cand detections px py 0 d ∈
      cand_for thresh px py detections "mob_oncursor" 0 := by
    simp only [cand_for, List.mem_map]
    exact ⟨d, List.mem_filter.mpr ⟨hd, hdq⟩, rfl⟩
  cases hc : cand_for thresh px py detections "mob_oncursor" 0 ++
      cand_for thresh px py detections "mob_near" 1 ++
      cand_for thresh px py detections "mob_away" 2 with
  | nil =>
    have hmem : mk_cand detections px py 0 d ∈ ([] : List Cand) := by
      rw [← hc]
      exact List.mem_append_left _ (List.mem_append_left _ hmem0)
    cases hmem
  | cons c cs =>
    have hmem : mk_cand detections px py 0 d ∈ c :: cs := by
      rw [← hc]
      exact List.mem_append_left _ (List.mem_append_left _ hmem0)
    refine ⟨(select_first_min c cs).det, ?_, ?_⟩
    · simp only [find_target_mob]
      rw [hc]
    · have hbest_mem : select_first_min c cs ∈
          cand_for thresh px py detections "mob_oncursor" 0 ++
          cand_for thresh px py detections "mob_near" 1 ++
          cand_for thresh px py detections "mob_away" 2 := by
        rw [hc]
        rcases select_first_min_mem c cs with h | h
        · exact List.mem_cons.mpr (Or.inl h)
        · exact List.mem_cons_of_mem c h
      have hbest_w : (select_first_min c cs).weight = 0 := by
        rcases List.mem_cons.mp hmem with heq | hmem'
        · have hcw : c.weight = 0 := by rw [← heq]; rfl
          have hle := select_first_min_weight_le_start c cs
          rw [hcw] at hle
          exact Nat.le_zero.mp hle
        · exact Nat.le_zero.mp (select_first_min_weight_le c cs _ hmem')
      rcases List.mem_append.mp hbest_mem with h1 | h2
      rcases List.mem_append.mp h1 with ha | hb
      · exact cand_for_cls thresh px py detections "mob_oncursor" 0 _ ha
      · have hw := cand_for_weight thresh px py detections "mob_near" 1 _ hb
        rw [hbest_w] at hw
        cases hw
      · have hw := cand_for_weight thresh px py detections "mob_away" 2 _ h2
        rw [hbest_w] at hw
        cases hw

/-- Witness for C1: on `[mob_away@0.9, mob_oncursor@0.3]` with threshold 0.25
the planner selects the `mob_oncursor` detection. -/
theorem find_target_mob_priority_witness :
    ∃ r, find_target_mob (1/4) 640 360 [specAwayDet, specOncursorDet] = some r ∧
      pyLower r.cls = "mob_oncursor" :=
  find_target_mob_priority (1/4) 640 360 [specAwayDet, specOncursorDet]
    ⟨specOncursorDet, by simp [specOncursorDet], by decide, by norm_num [specOncursorDet]⟩

theorem execute_skill_eq (inj_ok : Option String → String → Bool) (now : ℚ) (st : SCState)
    (skill : String) :
    execute_skill inj_ok now st skill =
      (exec_ok inj_ok skill,
        if exec_ok inj_ok skill then mark_skill now st skill else st) := by
  simp only [execute_skill, exec_ok]
  by_cases h1 : (parse_skill_keybind skill).1 = none
  · simp only [if_pos h1]
    by_cases hk : inj_ok none (parse_skill_keybind skill).2 = true <;> simp [hk]
  · simp only [if_neg h1]
    by_cases h2 : (parse_skill_keybind skill).1 = some "alt"
    · simp only [if_pos h2]
      by_cases hk : inj_ok (some "alt") (parse_skill_keybind skill).2 = true <;> simp [hk]
    · simp only [if_neg h2]
      by_cases h3 : (parse_skill_keybind skill).1 = some "ctrl"
      · simp only [if_pos h3]
        by_cases hk : inj_ok (some "ctrl") (parse_skill_keybind skill).2 = true <;> simp [hk]
      · simp only [if_neg h3]
        simp

theorem execute_skill_of_ok (inj_ok : Option String → String → Bool) (now : ℚ)
    (st : SCState) (skill : String) (h : exec_ok inj_ok skill = true) :
    execute_skill inj_ok now st skill = (true, mark_skill now st skill) := by
  rw [execute_skill_eq, h]
  simp

theorem execute_skill_of_fail (inj_ok : Option String → String → Bool) (now : ℚ)
    (st : SCState) (skill : String) (h : exec_ok inj_ok skill = false) :
    execute_skill inj_ok now st skill = (false, st) := by
  rw [execute_skill_eq, h]
  simp

theorem execute_combo_go_nil (inj_ok : Option String → String → Bool) (now : ℚ)
    (name : String) (st : SCState) :
    execute_combo_go inj_ok now name [] st =
      (true, { st with combo_cooldowns := (name, now) :: st.combo_cooldowns }) := rfl

theorem execute_combo_go_cons (inj_ok : Option String → String → Bool) (now : ℚ)
    (name s : String) (rest : List String) (st : SCState) :
    execute_combo_go inj_ok now name (s :: rest) st =
      match execute_skill inj_ok now st s with
      | (false, st') => (false, st')
      | (true, st') => execute_combo_go inj_ok now name rest st' := rfl

theorem lookup_all_now (now : ℚ) (marks rest : List (String × ℚ)) (key : String)
    (hval : ∀ e ∈ marks, e.2 = now) (hkey : key ∈ marks.map Prod.fst) :
    (marks ++ rest).lookup key = some now := by
  induction marks with
  | nil => cases hkey
  | cons a ms ih =>
    rcases a with ⟨ka, va⟩
    simp only [List.cons_append, List.lookup]
    by_cases hk : key == ka
    · simp only [hk]
      have : va = now := hval (ka, va) (List.mem_cons_self _ _)
      rw [this]
    · simp only [Bool.not_eq_true] at hk
      simp only [hk]
      apply ih
      · intro e he
        exact hval e (List.mem_cons_of_mem _ he)
      · rcases List.mem_map.mp hkey with ⟨e, he, hfst⟩
        rcases List.mem_cons.mp he with rfl | he'
        · exfalso
          have hka : ka = key := hfst
          rw [hka] at hk
          simp at hk
        · exact List.mem_map.mpr ⟨e, he', hfst⟩

theorem execute_combo_go_fail (inj_ok : Option String → String → Bool) (now : ℚ)
    (name : String) (skills : List String) :
    ∀ (st : SCState) (k : Nat) (sk : String),
      skills.get? k = some sk →
      (∀ i si, i < k → skills.get? i = some si → exec_ok inj_ok si = true) →
      exec_ok inj_ok sk = false →
      (execute_combo_go inj_ok now name skills st).1 = false ∧
      (execute_combo_go inj_ok now name skills st).2.combo_cooldowns = st.combo_cooldowns ∧
      (execute_combo_go inj_ok now name skills st).2.skill_cooldowns =
        ((skills.take k).map (fun s => (pyLower s, now))).reverse ++ st.skill_cooldowns := by
  induction skills with
  | nil =>
    intro st k sk hsk
    simp at hsk
  | cons s rest ih =>
    intro st k sk hsk hform hfail
    cases k with
    | zero =>
      have hs : s = sk := by
        simp only [List.get?] at hsk
        exact Option.some.inj hsk
      subst hs
      rw [execute_combo_go_cons, execute_skill_of_fail inj_ok now st s hfail]
      simp
    | succ k =>
      have h0 : exec_ok inj_ok s = true := hform 0 s (Nat.succ_pos k) rfl
      rw [execute_combo_go_cons, execute_skill_of_ok inj_ok now st s h0]
      have hrest := ih (mark_skill now st s) k sk hsk
        (fun i si hi hget => hform (i + 1) si (Nat.succ_lt_succ hi) hget) hfail
      refine ⟨hrest.1, ?_, ?_⟩
      · show (execute_combo_go inj_ok now name rest (mark_skill now st s)).2.combo_cooldowns =
          st.combo_cooldowns
        rw [hrest.2.1]
        rfl
      · show (execute_combo_go inj_ok now name rest (mark_skill now st s)).2.skill_cooldowns = _
        rw [hrest.2.2]
        simp [mark_skill, List.take_succ_cons, List.reverse_cons, List.append_assoc]

theorem execute_combo_go_success (inj_ok : Option String → String → Bool) (now : ℚ)
    (name : String) (skills : List String) :
    ∀ (st : SCState),
      (∀ i si, skills.get? i = some si → exec_ok inj_ok si = true) →
      (execute_combo_go inj_ok now name skills st).1 = true ∧
      (execute_combo_go inj_ok now name skills st).2.combo_cooldowns =
        (name, now) :: st.combo_cooldowns := by
  induction skills with
  | nil =>
    intro st _
    rw [execute_combo_go_nil]
    exact ⟨rfl, rfl⟩
  | cons s rest ih =>
    intro st hok
    have h0 : exec_ok inj_ok s = true := hok 0 s rfl
    rw [execute_combo_go_cons, execute_skill_of_ok inj_ok now st s h0]
    exact ih (mark_skill now st s) (fun i si hget => hok (i + 1) si hget)

theorem get_take_of_lt {α : Type} (l : List α) :
    ∀ (n i : Nat), i < n → (l.take n).get? i = l.get? i := by
  induction l with
  | nil => intro n i _; simp
  | cons a l ih =>
    intro n i hi
    cases n with
    | zero => cases hi
    | succ n =>
      cases i with
      | zero => rfl
      | succ i => exact ih n i (Nat.lt_of_succ_lt_succ hi)

/-- C3: if the `k`-th skill of a combo fails, `execute_combo` reports failure,
the combo's own cooldown map is untouched (the combo stays ready for retry),
and every skill executed before step `k` is already marked used at `now`; a
fully successful pass, and only such a pass, stamps the combo's cooldown with
`now`. -/
theorem execute_combo_failure_atomicity (inj_ok : Option String → String → Bool)
    (now : ℚ) (st : SCState) (combo : ComboSet) :
    (∀ k sk, combo.skills.get? k = some sk →
      (∀ i si, i < k → combo.skills.get? i = some si → exec_ok inj_ok si = true) →
      exec_ok inj_ok sk = false →
      (execute_combo inj_ok now st combo).1 = false ∧
      (execute_combo inj_ok now st combo).2.combo_cooldowns = st.combo_cooldowns ∧
      (∀ i si, i < k → combo.skills.get? i = some si →
        ((execute_combo inj_ok now st combo).2.skill_cooldowns.lookup (pyLower si) =
          some now)))
    ∧ ((∀ i si, combo.skills.get? i = some si → exec_ok inj_ok si = true) →
      (execute_combo inj_ok now st combo).1 = true ∧
      (execute_combo inj_ok now st combo).2.combo_cooldowns.lookup combo.name = some now) := by
  constructor
  · intro k sk hsk hform hfail
    have h := execute_combo_go_fail inj_ok now combo.name combo.skills st k sk hsk hform hfail
    refine ⟨h.1, h.2.1, ?_⟩
    intro i si hi hget
    show (execute_combo_go inj_ok now combo.name combo.skills st).2.skill_cooldowns.lookup
      (pyLower si) = some now
    rw [h.2.2]
    apply lookup_all_now
    · intro e he
      rw [List.mem_reverse] at he
      rcases List.mem_map.mp he with ⟨s', _, rfl⟩
      rfl
    · have hmem : si ∈ combo.skills.take k := by
        have : (combo.skills.take k).get? i = some si := by
          rw [get_take_of_lt combo.skills k i hi]
          exact hget
        exact List.get?_mem this
      rw [List.map_reverse, List.mem_reverse, List.map_map]
      exact List.mem_map.mpr ⟨si, hmem, rfl⟩
  · intro hok
    have h := execute_combo_go_success inj_ok now combo.name combo.skills st hok
    refine ⟨h.1, ?_⟩
    show ((execute_combo_go inj_ok now combo.name combo.skills st).2.combo_cooldowns.lookup
      combo.name) = some now
    rw [h.2]
    simp [List.lookup]

/-- Witness for C3: with skills `1,2,3,4` and the 3rd failing, the combo
reports failure, its own cooldown map stays empty, and skills `1` and `2` are
marked used at `now = 100`; with an all-succeeding oracle the combo cooldown is
stamped. -/
theorem execute_combo_failure_atomicity_witness :
    (execute_combo injFail3 100 ⟨[], []⟩ combo0).1 = false ∧
    (execute_combo injFail3 100 ⟨[], []⟩ combo0).2.combo_cooldowns = [] ∧
    (execute_combo injFail3 100 ⟨[], []⟩ combo0).2.skill_cooldowns.lookup (pyLower "1") =
      some 100 ∧
    (execute_combo injFail3 100 ⟨[], []⟩ combo0).2.skill_cooldowns.lookup (pyLower "2") =
      some 100 ∧
    (execute_combo (fun _ _ => true) 100 ⟨[], []⟩ combo0).1 = true ∧
    (execute_combo (fun _ _ => true) 100 ⟨[], []⟩ combo0).2.combo_cooldowns.lookup
      combo0.name = some 100 := by
  have hfail := (execute_combo_failure_atomicity injFail3 100 ⟨[], []⟩ combo0).1 2 "3" rfl
    (by
      intro i si hlt hget
      interval_cases i
      · simp only [combo0, List.get?] at hget
        cases hget
        decide
      · simp only [combo0, List.get?] at hget
        cases hget
        decide)
    (by decide)
  have hsucc := (execute_combo_failure_atomicity (fun _ _ => true) 100 ⟨[], []⟩ combo0).2
    (by
      intro i si hget
      have : i < 4 := by
        by_contra hge
        rw [List.get?_eq_none.mpr (by simp [combo0]; omega)] at hget
        cases hget
      interval_cases i <;>
        (simp only [combo0, List.get?] at hget; cases hget; decide))
  exact ⟨hfail.1, hfail.2.1, hfail.2.2 0 "1" (by omega) rfl, hfail.2.2 1 "2" (by omega) rfl,
    hsucc.1, hsucc.2⟩

/-- C10: `get_skill_cooldown_remaining` is `0` exactly when `is_skill_ready`
holds (both consult the lowercased last-used map and the configured cooldown);
a never-executed skill is ready with remaining `0`, and at the exact cooldown
boundary (`now − last = cooldown`) the skill is ready with remaining `0`. -/
theorem cooldown_remaining_zero_iff_ready (cfg : List (String × ℚ)) (st : SCState)
    (now : ℚ) (skill : String) :
    (get_skill_cooldown_remaining cfg st now skill = 0 ↔
      is_skill_ready cfg st now skill = true)
    ∧ (st.skill_cooldowns.lookup (pyLower skill) = none →
        get_skill_cooldown_remaining cfg st now skill = 0 ∧
        is_skill_ready cfg st now skill = true)
    ∧ (∀ last, st.skill_cooldowns.lookup (pyLower skill) = some last →
        now - last = get_skill_cooldown cfg (pyLower skill) →
        is_skill_ready cfg st now skill = true ∧
        get_skill_cooldown_remaining cfg st now skill = 0) := by
  cases hl : st.skill_cooldowns.lookup (pyLower skill) with
  | none =>
    refine ⟨?_, fun _ => ⟨?_, ?_⟩, ?_⟩ <;>
      simp [get_skill_cooldown_remaining, is_skill_ready, hl]
  | some last =>
    have hrem : get_skill_cooldown_remaining cfg st now skill =
        max 0 (get_skill_cooldown cfg (pyLower skill) - (now - last)) := by
      simp [get_skill_cooldown_remaining, hl]
    have hready : is_skill_ready cfg st now skill =
        decide (get_skill_cooldown cfg (pyLower skill) ≤ now - last) := by
      simp [is_skill_ready, hl]
    refine ⟨?_, ?_, ?_⟩
    · rw [hrem, hready]
      constructor
      · intro h
        have : get_skill_cooldown cfg (pyLower skill) - (now - last) ≤ 0 := by
          by_contra hpos
          push_neg at hpos
          rw [max_eq_right (le_of_lt hpos)] at h
          exact absurd h (ne_of_gt hpos)
        simp only [decide_eq_true_eq]
        linarith
      · intro h
        simp only [decide_eq_true_eq] at h
        rw [max_eq_left (by linarith)]
    · intro hnone
      exact Option.noConfusion hnone
    · intro last' hsome hbound
      have : last' = last := (Option.some.inj hsome).symm
      subst this
      constructor
      · rw [hready]
        simp only [decide_eq_true_eq]
        linarith [hbound]
      · rw [hrem]
        rw [max_eq_left (by linarith [hbound])]

/-- Witness for C10: with the configured 10 s cooldown on keybind `1`, a use at
`t = 100` checked at `t = 110` (the exact boundary) is ready with remaining
`0`, and the never-used keybind `7` is ready with remaining `0`. -/
theorem cooldown_remaining_zero_iff_ready_witness :
    is_skill_ready [("1", 10)] ⟨[("1", 100)], []⟩ 110 "1" = true ∧
    get_skill_cooldown_remaining [("1", 10)] ⟨[("1", 100)], []⟩ 110 "1" = 0 ∧
    get_skill_cooldown_remaining [("1", 10)] ⟨[], []⟩ 110 "7" = 0 ∧
    is_skill_ready [("1", 10)] ⟨[], []⟩ 110 "7" = true := by
  have hb := (cooldown_remaining_zero_iff_ready [("1", 10)] ⟨[("1", 100)], []⟩ 110 "1").2.2
    100 rfl
    (by
      have h10 : get_skill_cooldown [("1", 10)] (pyLower "1") = 10 := rfl
      rw [h10]
      norm_num)
  have hn := (cooldown_remaining_zero_iff_ready [("1", 10)] ⟨[], []⟩ 110 "7").2.1 rfl
  exact ⟨hb.1, hb.2, hn.1, hn.2⟩

/-- C6: on the open 5×5 grid, `astar(5,5,(0,0),(4,4))` returns a 9-position
path from `(0,0)` to `(4,4)` in unit steps, and for every goal outside the
`width`×`height` bounds `astar` returns no path. -/
theorem astar_grid_properties :
    astar_path_check (astar 512 5 5 (0, 0) (4, 4)) = true ∧
    (∀ (fuel : Nat) (w h : ℤ) (s g : Position),
      ¬ (0 ≤ g.1 ∧ g.1 < w ∧ 0 ≤ g.2 ∧ g.2 < h) → astar fuel w h s g = none) := by
  constructor
  · decide
  · intro fuel w h s g hg
    simp [astar, hg]

/-- Witness for C6 at the out-of-bounds goal `(5,5)` on the 5×5 grid. -/
theorem astar_grid_properties_witness : astar 512 5 5 (0, 0) (5, 5) = none :=
  astar_grid_properties.2 512 5 5 (0, 0) (5, 5) (by decide)

theorem pyInt_eq_floor (q : ℚ) (hq : 0 ≤ q) : pyInt q = ⌊q⌋ := by
  rw [pyInt, Rat.floor_def]
  exact Int.tdiv_eq_ediv (Rat.num_nonneg.mpr hq) (Int.ofNat_nonneg q.den)

theorem pyInt_intCast (n : ℤ) : pyInt ((n : ℚ)) = n := by
  simp [pyInt, Rat.num_intCast, Rat.den_intCast]

/-- Counterexample for C9: at `x = 100` on a 1280-pixel axis the code produces
`int(100·65535/1280) = 5119`, not the spec's `int(100·65535/1279) = 5123`; the
divisor is the screen dimension itself, not `screen_dimension − 1`. -/
theorem abs_coord_counterexample :
    abs_coord 100 1280 = 5119 ∧ spec_abs_coord 100 1280 = 5123 ∧
    abs_coord 100 1280 ≠ spec_abs_coord 100 1280 := by
  have h1 : abs_coord 100 1280 = 5119 := by
    rw [abs_coord, pyInt_eq_floor _ (by norm_num)]
    norm_num
  have h2 : spec_abs_coord 100 1280 = 5123 := by
    have hm : max (1 : ℚ) (((1280 : ℤ) : ℚ) - 1) = 1279 := by norm_num
    rw [spec_abs_coord, hm, pyInt_eq_floor _ (by norm_num)]
    norm_num
  exact ⟨h1, h2, by rw [h1, h2]; decide⟩

/-- C9 (amended): each axis of an absolute move is mapped as
`int(value * 65535 / screen_dimension)` — no `− 1` and no clamping; the value
is the floor of the exact quotient, it lies inside the OS's normalised range
`[0, 65535]` whenever `0 ≤ value < screen_dim`, and a one-pixel screen divides
by `1` (yielding `value * 65535`) rather than by zero. -/
theorem abs_coord_formula (value screen_dim : ℤ) (hv : 0 ≤ value)
    (hw : 0 < screen_dim) (hvw : value < screen_dim) :
    abs_coord value screen_dim = ⌊((value : ℚ) * 65535) / (screen_dim : ℚ)⌋ ∧
    0 ≤ abs_coord value screen_dim ∧ abs_coord value screen_dim < 65535 ∧
    abs_coord value 1 = value * 65535 := by
  have hv' : (0 : ℚ) ≤ (value : ℚ) := by exact_mod_cast hv
  have hw' : (0 : ℚ) < (screen_dim : ℚ) := by exact_mod_cast hw
  have habs : abs_coord value screen_dim =
      ⌊((value : ℚ) * 65535) / (screen_dim : ℚ)⌋ :=
    pyInt_eq_floor _ (by positivity)
  refine ⟨habs, ?_, ?_, ?_⟩
  · rw [habs]
    exact Int.floor_nonneg.mpr (by positivity)
  · rw [habs]
    have hlt : ((value : ℚ) * 65535) / (screen_dim : ℚ) < ((65535 : ℤ) : ℚ) := by
      rw [div_lt_iff₀ hw']
      have hvw' : (value : ℚ) + 1 ≤ (screen_dim : ℚ) := by exact_mod_cast hvw
      push_cast
      nlinarith
    exact_mod_cast Int.floor_lt.mpr hlt
  · rw [abs_coord, show ((1 : ℤ) : ℚ) = (1 : ℚ) by norm_num, div_one,
      show ((value : ℚ) * 65535) = ((value * 65535 : ℤ) : ℚ) by push_cast; ring,
      pyInt_intCast]

/-- Witness for C9 (amended) at `value = 100`, `screen_dim = 1280`. -/
theorem abs_coord_formula_witness :
    abs_coord 100 1280 = ⌊((100 : ℚ) * 65535) / (1280 : ℚ)⌋ ∧
    0 ≤ abs_coord 100 1280 ∧ abs_coord 100 1280 < 65535 ∧
    abs_coord 100 1 = 100 * 65535 :=
  abs_coord_formula 100 1280 (by norm_num) (by norm_num) (by norm_num)

/-- C4: a raw box `{x:100, y:50, width:20, height:10}` from a 640×360
inference frame with a 1280×720 window is published as
`{x:200, y:100, width:40, height:20}`, and in general every detection's four
box fields are multiplied by `window_dim / frame_dim` per axis when both
dimensions are non-zero. -/
theorem detection_rescaling (frame_w frame_h window_w window_h : ℚ) (d : Detection)
    (hfw : frame_w ≠ 0) (hfh : frame_h ≠ 0) (hww : window_w ≠ 0) (hwh : window_h ≠ 0) :
    scale_detection 640 360 1280 720 ⟨"mob_near", 1/2, 100, 50, 20, 10⟩ =
      ⟨"mob_near", 1/2, 200, 100, 40, 20⟩ ∧
    (scale_detection frame_w frame_h window_w window_h d).x = d.x * (window_w / frame_w) ∧
    (scale_detection frame_w frame_h window_w window_h d).y = d.y * (window_h / frame_h) ∧
    (scale_detection frame_w frame_h window_w window_h d).width =
      d.width * (window_w / frame_w) ∧
    (scale_detection frame_w frame_h window_w window_h d).height =
      d.height * (window_h / frame_h) := by
  refine ⟨?_, ?_, ?_, ?_, ?_⟩
  · simp only [scale_detection, scale_factor]
    norm_num
  all_goals simp [scale_detection, scale_factor, hfw, hfh, hww, hwh]

/-- Witness for C4 at the spec's 640×360 frame / 1280×720 window instance. -/
theorem detection_rescaling_witness :
    scale_detection 640 360 1280 720 ⟨"mob_near", 1/2, 100, 50, 20, 10⟩ =
      ⟨"mob_near", 1/2, 200, 100, 40, 20⟩ :=
  (detection_rescaling 1 1 1 1 ⟨"", 0, 0, 0, 0, 0⟩ (by norm_num) (by norm_num)
    (by norm_num) (by norm_num)).1

theorem heal_amount_of_max_hp_100 (p : Player) (h : p.max_hp = 100) :
    pyInt ((p.max_hp : ℚ) * (2/5)) = 40 := by
  rw [h, show (((100 : ℤ) : ℚ)) * (2/5) = ((40 : ℤ) : ℚ) by norm_num, pyInt_intCast]

theorem auto_heal_ap7 : auto_heal ap7 =
    { ap7 with player := { player7 with inventory := [("hp_potion", 29)], hp := 41 } } := by
  unfold auto_heal
  rw [if_pos]
  · simp only []
    rw [if_pos (by decide :
      (0 : ℤ) < (ap7.player.inventory.lookup ap7.hp_potion_name).getD 0)]
    rw [heal_amount_of_max_hp_100 _ (by decide)]
    decide
  · norm_num [ap7, player7]

/-- Counterexample for C7: with inventory total exactly at capacity (30
potions) but low HP, `tick` first auto-heals — consuming a potion and dropping
the total below capacity — and then invokes `auto_hunt`, not
`return_to_village`, although the AI state is aggressive and a living enemy is
in range. -/
theorem tick_full_inventory_counterexample :
    inventory_total ap7.player = 30 ∧ ap7.inventory_capacity = 30 ∧
    ap7.state = "aggressive" ∧ (find_target ap7).isSome = true ∧
    (tick ap7 1000).1 = TickAction.autoHunt ∧
    (tick ap7 1000).1 ≠ TickAction.returnToVillage := by
  refine ⟨by decide, by decide, by decide, by decide, ?_, ?_⟩
  · unfold tick
    simp only []
    rw [auto_heal_ap7]
    decide
  · unfold tick
    simp only []
    rw [auto_heal_ap7]
    decide

/-- C7 (amended): whenever, *after* the automatic heal that `tick` performs
first, the inventory total has reached the configured capacity or the HP
potions are exhausted, `tick` invokes `return_to_village` and does not invoke
`auto_hunt`, regardless of the AI state and of any enemy in range. -/
theorem tick_return_to_village_after_heal (ap : AutoPlay) (now : ℚ)
    (h : (inventory_full (auto_heal ap) || potions_empty (auto_heal ap)) = true) :
    (tick ap now).1 = TickAction.returnToVillage ∧
    (tick ap now).1 ≠ TickAction.autoHunt := by
  unfold tick
  simp only []
  rw [if_pos h]
  exact ⟨rfl, by simp⟩

/-- Witness for C7 (amended): with a full, potion-less inventory after the
(no-op) heal, `tick` takes the return-to-village branch. -/
theorem tick_return_to_village_after_heal_witness :
    (tick ap8 500).1 = TickAction.returnToVillage ∧
    (tick ap8 500).1 ≠ TickAction.autoHunt :=
  tick_return_to_village_after_heal ap8 500 (by
    have hh : auto_heal ap8 = ap8 := by
      unfold auto_heal
      rw [if_neg]
      norm_num [ap8, player8]
    rw [hh]
    decide)

/-- C8: the `Player` dataclass carries no `gold` field, so selling the first
non-potion item in `village_actions` (`self.player.gold += qty`) and the
potion purchase in `refill_potions` (`self.player.gold >= cost`) both raise
`AttributeError` instead of reading and updating gold. -/
theorem village_actions_gold_attribute_error :
    village_actions ap9 = .error (.attributeError "gold") ∧
    refill_potions ap9 = .error (.attributeError "gold") := by
  constructor <;> rfl

theorem navigate_spec (env : PlannerEnv) (st : PlannerState) (detections : List Detection)
    (left top w h : ℚ) :
    (navigate env st detections left top w h).1.target_locked = st.target_locked ∧
    is_navigation (navigate env st detections left top w h).2 = true := by
  simp only [navigate]
  split
  · constructor
    · split_ifs <;> rfl
    · split_ifs <;> rfl
  · split
    · exact ⟨rfl, rfl⟩
    · split_ifs <;> exact ⟨rfl, rfl⟩

theorem plan_act_locks (env : PlannerEnv) (st : PlannerState) (detections : List Detection)
    (left top w h : ℚ) (target hb : Detection)
    (htarget : find_target_mob st.conf_thresh (w / 2) (h / 2) detections = some target)
    (hhb : find_health_for target detections = some hb) :
    (plan_act env st detections left top w h).1.target_locked = some target ∧
    is_attack_with_health (plan_act env st detections left top w h).2 = true := by
  simp only [plan_act, htarget, hhb, Option.isSome_some, is_attack_with_health]
  simp

theorem plan_act_clears (env : PlannerEnv) (st : PlannerState) (detections : List Detection)
    (left top w h : ℚ) (lock : Detection)
    (hnone : find_target_mob st.conf_thresh (w / 2) (h / 2) detections = none)
    (hlock : st.target_locked = some lock)
    (hgone : (detections.any fun d =>
      pyLower d.cls == "mob_combat_health" && decide ((1:ℚ)/20 < iou lock d)) = false) :
    (plan_act env st detections left top w h).1.target_locked = none ∧
    is_navigation (plan_act env st detections left top w h).2 = true := by
  simp only [plan_act, hnone, hlock, hgone, Bool.false_eq_true, if_false]
  refine ⟨?_, (navigate_spec env _ detections left top w h).2⟩
  rw [(navigate_spec env _ detections left top w h).1]

theorem plan_gates_pass (env : PlannerEnv) (st : PlannerState) (detections : List Detection)
    (left top w h : ℚ)
    (hen : st.enabled = true) (hidle : st.in_idle_state = false)
    (hroll : env.should_idle = false)
    (hcd : env.action_delay + (if st.action_count < 10 then env.warmup_delay else 0) ≤
      env.now - st.last_action) :
    plan_and_execute env st detections left top w h =
      plan_act env
        { st with
          last_action := env.now
          action_count := st.action_count + 1
          last_idle_check :=
            if 30 < env.now - st.last_idle_check then env.now else st.last_idle_check }
        detections left top w h := by
  simp only [plan_and_execute, plan_gate, hen, hidle, Bool.false_eq_true, if_false,
    Bool.true_eq_false, not_true, false_and, ite_false, ite_true, hroll]
  by_cases h30 : 30 < env.now - st.last_idle_check
  · rw [if_pos h30, if_pos h30, if_neg (not_lt.mpr hcd)]
  · rw [if_neg h30, if_neg h30, if_neg (not_lt.mpr hcd)]

/-- C2: (a) when the planner attacks a target overlapped by a
`mob_combat_health` detection, that target becomes the (single, `Option`-typed)
target lock; (b) in any later cycle where no fresh mob target is found and no
`mob_combat_health` detection overlaps the locked box, the same cycle clears
the lock and already performs a navigation action — it does not wait an extra
cycle.  The lock is one `Option Detection` field, so at most one lock exists
at any time.  The hypotheses state that this cycle passes the enabled, idle
and cooldown gates. -/
theorem plan_target_lock_lifecycle (env : PlannerEnv) (st : PlannerState)
    (detections : List Detection) (left top w h : ℚ)
    (hen : st.enabled = true) (hidle : st.in_idle_state = false)
    (hroll : env.should_idle = false)
    (hcd : env.action_delay + (if st.action_count < 10 then env.warmup_delay else 0) ≤
      env.now - st.last_action) :
    (∀ target hb : Detection,
      find_target_mob st.conf_thresh (w / 2) (h / 2) detections = some target →
      find_health_for target detections = some hb →
      (plan_and_execute env st detections left top w h).1.target_locked = some target ∧
      is_attack_with_health (plan_and_execute env st detections left top w h).2 = true)
    ∧ (find_target_mob st.conf_thresh (w / 2) (h / 2) detections = none →
      ∀ lock : Detection, st.target_locked = some lock →
      (detections.any fun d =>
        pyLower d.cls == "mob_combat_health" && decide ((1:ℚ)/20 < iou lock d)) = false →
      (plan_and_execute env st detections left top w h).1.target_locked = none ∧
      is_navigation (plan_and_execute env st detections left top w h).2 = true) := by
  rw [plan_gates_pass env st detections left top w h hen hidle hroll hcd]
  constructor
  · intro target hb htarget hhb
    exact plan_act_locks env _ detections left top w h target hb htarget hhb
  · intro hnone lock hlock hgone
    exact plan_act_clears env _ detections left top w h lock hnone hlock hgone

theorem find_target_mob_witness_eval :
    find_target_mob stA.conf_thresh ((640 : ℚ) / 2) ((360 : ℚ) / 2) [mobDet, healthDet] =
      some mobDet := by
  have hq_near_m : qualifies (1/4) "mob_near" mobDet = true := by
    unfold qualifies
    rw [show pyLower mobDet.cls = "mob_near" from rfl]
    simp only [beq_self_eq_true, Bool.true_and, decide_eq_true_eq]
    norm_num [mobDet]
  show find_target_mob (1/4) ((640 : ℚ) / 2) ((360 : ℚ) / 2) [mobDet, healthDet] = some mobDet
  simp only [find_target_mob, cand_for, List.filter_cons, List.filter_nil, hq_near_m,
    (rfl : qualifies (1/4) "mob_oncursor" mobDet = false),
    (rfl : qualifies (1/4) "mob_oncursor" healthDet = false),
    (rfl : qualifies (1/4) "mob_near" healthDet = false),
    (rfl : qualifies (1/4) "mob_away" mobDet = false),
    (rfl : qualifies (1/4) "mob_away" healthDet = false),
    Bool.false_eq_true, if_false, if_true, List.map_cons, List.map_nil, List.nil_append,
    List.append_nil]
  rfl

theorem find_health_for_witness_eval :
    find_health_for mobDet [mobDet, healthDet] = some healthDet := by
  have hpos : (fun d => pyLower d.cls == "mob_combat_health" &&
      decide ((1:ℚ)/20 < iou mobDet d)) healthDet = true := by
    simp only [show pyLower healthDet.cls = "mob_combat_health" from rfl,
      beq_self_eq_true, Bool.true_and, decide_eq_true_eq]
    norm_num [iou, mobDet, healthDet]
  simp only [find_health_for, List.find?_cons, hpos]
  rfl

/-- Witness for C2: an attack on `mobDet` with its overlapping health bar sets
the lock; a later cycle with only a minimap dot (no target, no health bar)
clears the lock and navigates in that same cycle. -/
theorem plan_target_lock_lifecycle_witness :
    (plan_and_execute env2 stA [mobDet, healthDet] 0 0 640 360).1.target_locked =
      some mobDet ∧
    is_attack_with_health ((plan_and_execute env2 stA [mobDet, healthDet] 0 0 640 360).2) =
      true ∧
    (plan_and_execute env2 stB [dotDet] 0 0 640 360).1.target_locked = none ∧
    is_navigation ((plan_and_execute env2 stB [dotDet] 0 0 640 360).2) = true := by
  have hA := (plan_target_lock_lifecycle env2 stA [mobDet, healthDet] 0 0 640 360 rfl rfl rfl
    (by norm_num [env2, stA])).1 mobDet healthDet find_target_mob_witness_eval
    find_health_for_witness_eval
  have hB := (plan_target_lock_lifecycle env2 stB [dotDet] 0 0 640 360 rfl rfl rfl
    (by norm_num [env2, stB])).2 rfl mobDet rfl rfl
  exact ⟨hA.1, hA.2, hB.1, hB.2⟩
